import Mathlib

/-!
Shallow embedding of newslynx/tasks/ingest_bulk.py (class BulkLoader), the
bulk-ingestion job engine of newslynx-core.  Items and transform outputs are
opaque type parameters; the staged payload, the session behaviour and the
arrival order of pool results are explicit parameters.  Every run yields a
trace of external effects (redis get and delete, pool construction, one mark
per item result, session add, execute, commit, rollback, remove) together
with a result: a value `Except.ok v` models load_all returning v to the queue
worker, while `Except.error e` models the Python exception e propagating
(being raised) out of load_all.
-/

/-- Python exception values that can arise in ingest_bulk.py.  The string
field models the Python 2 attribute `e.message` of the exception. -/
inductive Exc where
  | objectDeleted (msg : String)
  | jobTimeout (msg : String)
  | internalServer (msg : String)
  | generic (msg : String)
  deriving DecidableEq

/-- Attribute access `e.message` on an exception value. -/
def Exc.message : Exc → String
  | .objectDeleted m => m
  | .jobTimeout m => m
  | .internalServer m => m
  | .generic m => m

/-- Exception classes named by the except clauses of ingest_bulk.py. -/
inductive ExcClass where
  | exception
  | objectDeletedError
  | jobTimeoutException
  deriving DecidableEq

/-- Python instance test `isinstance(e, C)` for the classes involved.
ObjectDeletedError (sqlalchemy.orm.exc) and JobTimeoutException
(rq.timeouts) both derive from the root class Exception, as does every
exception raised here.  InternalServerError lives in newslynx/exc.py, which
is not among the sources; modelled from the spec: section 7 lists
PayloadMissing and TimeoutExceeded as distinct error taxa, so
InternalServerError is an Exception subclass unrelated to
JobTimeoutException. -/
def Exc.isInstanceOf : Exc → ExcClass → Bool
  | _, .exception => true
  | .objectDeleted _, .objectDeletedError => true
  | .jobTimeout _, .jobTimeoutException => true
  | _, _ => false

/-- Python try/except clause resolution: the first clause in source order
whose class matches the raised exception is the one that handles it. -/
def firstMatch (e : Exc) : List ExcClass → Option ExcClass
  | [] => none
  | c :: cs => if e.isInstanceOf c then some c else firstMatch e cs

/-- Behaviour of one call `self.load_one(item, **kw)`: the transform either
returns a value (possibly Python None, hence Option) or raises. -/
inductive TransformRes (β : Type) where
  | ok (out : Option β)
  | raises (e : Exc)
  deriving DecidableEq

/-- The pair returned by BulkLoader._load_one (lines 44-55 of the source):
`output o` stands for the Python pair (False, res) with res the return value
of load_one, `failure e` stands for (True, e) with e the captured
exception. -/
inductive ItemRes (β : Type) where
  | output (o : Option β)
  | failure (e : Exc)
  deriving DecidableEq

/-- The except clauses of _load_one in source order: `except Exception as e`
is written first, `except ObjectDeletedError` second. -/
def loadOneClauses : List ExcClass := [ExcClass.exception, ExcClass.objectDeletedError]

/-- Embedding of BulkLoader._load_one: run load_one; when it raises,
dispatch on the first matching except clause.  The `except Exception`
clause returns (True, e); the `except ObjectDeletedError` clause returns
(False, None).  An exception matching no clause would propagate out of
_load_one (the Except.error case). -/
def load_one_wrapped {β : Type} (t : TransformRes β) : Except Exc (ItemRes β) :=
  match t with
  | .ok o => Except.ok (ItemRes.output o)
  | .raises e =>
    match firstMatch e loadOneClauses with
    | some ExcClass.exception => Except.ok (ItemRes.failure e)
    | some ExcClass.objectDeletedError => Except.ok (ItemRes.output none)
    | _ => Except.error e

/-- What _load_one actually produces on each transform behaviour: because
ObjectDeletedError derives from Exception and the `except Exception` clause
comes first in source order, every raised exception is captured as a
failure pair. -/
def wrappedRes {β : Type} : TransformRes β → ItemRes β
  | .ok o => ItemRes.output o
  | .raises e => ItemRes.failure e

/-- Externally visible effects of one load_all run, in program order. -/
inductive Event (β : Type) where
  | redisGet (found : Bool)
  | redisDelete
  | poolCreate (size : Nat)
  | itemResult (err : Bool)
  | sessionAdd (o : β)
  | sessionExecute (o : β)
  | sessionCommit
  | sessionRollback
  | sessionRemove
  deriving DecidableEq

/-- Values load_all can return to the queue worker: True on success, a
RequestError value on a batch or session error, an InternalServerError
value built by the timeout handler. -/
inductive JobOutcome where
  | committed
  | requestError (msg : String)
  | internalError (msg : String)
  deriving DecidableEq

/-- The class attribute `returns` of a BulkLoader subclass: the string
values "model" and "query", or the base-class default None. -/
inductive ReturnsMode where
  | model
  | query
  | nullMode
  deriving DecidableEq

/-- The class attributes of a BulkLoader variant that load_all reads. -/
structure LoaderCfg where
  returns : ReturnsMode
  concurrent : Bool
  max_workers : Nat
  deriving DecidableEq

/-- Session behaviour oracle: whether session.add, session.execute and
session.commit raise for this run, and with which exception. -/
structure SessionEnv (β : Type) where
  addExc : β → Option Exc
  executeExc : β → Option Exc
  commitExc : Option Exc

/-- A session on which every operation succeeds. -/
def okEnv {β : Type} : SessionEnv β :=
  ⟨fun _ => none, fun _ => none, none⟩

/-- Message of the InternalServerError raised when the staged payload is
absent (load_all lines 67-70). -/
def missingPayloadMsg : String :=
  "An unexpected error occurred while processing bulk upload."

/-- The RequestError message format used by load_all. -/
def bulkErrMsg (m : String) : String :=
  "There was an error while bulk uploading: " ++ m

/-- The timeout message built in the outer except clause of load_all. -/
def timeoutMsg (elapsed : Nat) : String :=
  "Bulk loading timed out after " ++ toString elapsed ++ " seconds"

/-- Models the expression `errors[0].message`; the list is nonempty at the
one place this is evaluated. -/
def firstMessage : List Exc → String
  | [] => ""
  | e :: _ => e.message

/-- One of the two session loops of load_all (lines 106-126): iterate the
outputs, skip None, invoke the session call on each value; the first raised
exception ends the loop and is reported. -/
def sessLoop {β : Type} (call : β → Option Exc) (evf : β → Event β) :
    List (Option β) → List (Event β) × Option Exc
  | [] => ([], none)
  | none :: rest => sessLoop call evf rest
  | some o :: rest =>
    match call o with
    | some e => ([evf o], some e)
    | none =>
      let r := sessLoop call evf rest
      (evf o :: r.1, r.2)

/-- Dispatch on `self.returns`: the "model" branch adds each non-None
output to the session, the "query" branch executes it, any other value of
`returns` runs neither loop. -/
def mutatePhase {β : Type} (mode : ReturnsMode) (env : SessionEnv β)
    (os : List (Option β)) : List (Event β) × Option Exc :=
  match mode with
  | .model => sessLoop env.addExc Event.sessionAdd os
  | .query => sessLoop env.executeExc Event.sessionExecute os
  | .nullMode => ([], none)

/-- The aggregation loop over pool results (load_all lines 92-98): each
yielded pair (err, res) is appended to errors or to outputs in the order
the aggregator observes it; an exception escaping _load_one itself would
abort the iteration and propagate. -/
def runItems {β : Type} :
    List (Except Exc (ItemRes β)) →
      List (Event β) × Except Exc (List Exc × List (Option β))
  | [] => ([], Except.ok ([], []))
  | Except.error e :: _ => ([], Except.error e)
  | Except.ok (ItemRes.failure e) :: rest =>
    let r := runItems rest
    (Event.itemResult true :: r.1, r.2.map fun p => (e :: p.1, p.2))
  | Except.ok (ItemRes.output o) :: rest =>
    let r := runItems rest
    (Event.itemResult false :: r.1, r.2.map fun p => (p.1, o :: p.2))

/-- Order in which the aggregator observes item results: completion order
(modelled by the `arrival` parameter) under the concurrent pool, input
order in the sequential loop. -/
def observedOrder {α : Type} (cfg : LoaderCfg) (data arrival : List α) : List α :=
  if cfg.concurrent then arrival else data

/-- Whether _load_one reports this item as a failure. -/
def isFailItem {α β : Type} (t : α → TransformRes β) (it : α) : Bool :=
  match wrappedRes (t it) with
  | ItemRes.failure _ => true
  | ItemRes.output _ => false

/-- The errors list accumulated by load_all over the given observation
order. -/
def itemErrors {α β : Type} (t : α → TransformRes β) : List α → List Exc
  | [] => []
  | it :: rest =>
    match wrappedRes (t it) with
    | ItemRes.failure e => e :: itemErrors t rest
    | ItemRes.output _ => itemErrors t rest

/-- The outputs list accumulated by load_all over the given observation
order. -/
def itemOutputs {α β : Type} (t : α → TransformRes β) : List α → List (Option β)
  | [] => []
  | it :: rest =>
    match wrappedRes (t it) with
    | ItemRes.failure _ => itemOutputs t rest
    | ItemRes.output o => o :: itemOutputs t rest

/-- Events of load_all up to the aggregation decision: fetch, delete, pool
construction (concurrent mode only), one mark per observed item result. -/
def preTrace {α β : Type} (cfg : LoaderCfg) (t : α → TransformRes β)
    (data arrival : List α) : List (Event β) :=
  Event.redisGet true :: Event.redisDelete ::
    ((if cfg.concurrent then [Event.poolCreate (min data.length cfg.max_workers)] else []) ++
      (observedOrder cfg data arrival).map fun it => Event.itemResult (isFailItem t it))

/-- Error aggregation and commit policy of load_all (lines 100-139): a
nonempty errors list returns the RequestError built from the first
observed failure before any session work; otherwise the mode-dependent
session loop runs, then commit, with rollback and a RequestError on a
commit exception, and True on success. -/
def afterItems {β : Type} (cfg : LoaderCfg) (env : SessionEnv β)
    (errors : List Exc) (outputs : List (Option β)) (pre : List (Event β)) :
    List (Event β) × Except Exc JobOutcome :=
  if errors.length ≠ 0 then
    (pre, Except.ok (JobOutcome.requestError (bulkErrMsg (firstMessage errors))))
  else
    match mutatePhase cfg.returns env outputs with
    | (mutEvs, some e) =>
      (pre ++ mutEvs, Except.ok (JobOutcome.requestError (bulkErrMsg e.message)))
    | (mutEvs, none) =>
      match env.commitExc with
      | some e =>
        (pre ++ mutEvs ++ [Event.sessionCommit, Event.sessionRollback, Event.sessionRemove],
          Except.ok (JobOutcome.requestError (bulkErrMsg e.message)))
      | none =>
        (pre ++ mutEvs ++ [Event.sessionCommit, Event.sessionRemove],
          Except.ok JobOutcome.committed)

/-- The single except clause wrapping the whole body of load_all:
`except JobTimeoutException`. -/
def outerClauses : List ExcClass := [ExcClass.jobTimeoutException]

/-- An exception reaching the boundary of load_all: converted to the
timeout InternalServerError return value by the matching clause, raised
out of load_all when no clause matches. -/
def raiseOuter (elapsed : Nat) (e : Exc) : Except Exc JobOutcome :=
  match firstMatch e outerClauses with
  | some _ => Except.ok (JobOutcome.internalError (timeoutMsg elapsed))
  | none => Except.error e

/-- Embedding of BulkLoader.load_all (lines 57-145): fetch the staged
payload (raising InternalServerError when absent), delete the staging key,
build the pool in concurrent mode with size min(len(data), max_workers),
drive the items, aggregate, mutate the session and commit. -/
def loadAll {α β : Type} (cfg : LoaderCfg) (env : SessionEnv β)
    (transform : α → TransformRes β) (staged : Option (List α))
    (arrival : List α) : List (Event β) × Except Exc JobOutcome :=
  match staged with
  | none =>
    ([Event.redisGet false], raiseOuter 0 (Exc.internalServer missingPayloadMsg))
  | some data =>
    let order := observedOrder cfg data arrival
    let poolEvs : List (Event β) :=
      if cfg.concurrent then [Event.poolCreate (min data.length cfg.max_workers)] else []
    match runItems (order.map fun it => load_one_wrapped (transform it)) with
    | (itemEvs, Except.error e) =>
      (Event.redisGet true :: Event.redisDelete :: (poolEvs ++ itemEvs), raiseOuter 0 e)
    | (itemEvs, Except.ok (errors, outputs)) =>
      afterItems cfg env errors outputs
        (Event.redisGet true :: Event.redisDelete :: (poolEvs ++ itemEvs))

/-- Message carried by the JobTimeoutException that rq raises into the
main flow when the job budget expires. -/
def rqTimeoutRaised : Exc := Exc.jobTimeout "Task exceeded maximum timeout value"

/-- load_all under the rq timeout signal.  The signal is delivered to the
coordinating flow of load_all; if it arrives after `cutoff` recorded steps
but before the run completes, the remaining steps never happen,
JobTimeoutException is raised at that point, and the outer except clause
converts it using the elapsed duration since the job started. -/
def loadAllTimed {α β : Type} (cfg : LoaderCfg) (env : SessionEnv β)
    (transform : α → TransformRes β) (staged : Option (List α))
    (arrival : List α) (cutoff elapsed : Nat) :
    List (Event β) × Except Exc JobOutcome :=
  let r := loadAll cfg env transform staged arrival
  if cutoff < r.1.length then
    (r.1.take cutoff, raiseOuter elapsed rqTimeoutRaised)
  else r

/-- Recognizer for the commit event. -/
def isCommitEv {β : Type} : Event β → Bool
  | Event.sessionCommit => true
  | _ => false

/-- Recognizer for the rollback event. -/
def isRollbackEv {β : Type} : Event β → Bool
  | Event.sessionRollback => true
  | _ => false

/-- Recognizer for session mutation calls: add and execute. -/
def isMutEv {β : Type} : Event β → Bool
  | Event.sessionAdd _ => true
  | Event.sessionExecute _ => true
  | _ => false

/-- Recognizer for the per-item result marks produced by the pool loop. -/
def isItemEv {β : Type} : Event β → Bool
  | Event.itemResult _ => true
  | _ => false

/-- Recognizer for any session call. -/
def isSessionEv {β : Type} : Event β → Bool
  | Event.sessionAdd _ => true
  | Event.sessionExecute _ => true
  | Event.sessionCommit => true
  | Event.sessionRollback => true
  | Event.sessionRemove => true
  | _ => false

/-- The values passed to session.add or session.execute during a run. -/
def mutationsOf {β : Type} (tr : List (Event β)) : List β :=
  tr.filterMap fun ev =>
    match ev with
    | Event.sessionAdd o => some o
    | Event.sessionExecute o => some o
    | _ => none

/-- The values a run actually persists: its mutations, provided a commit
was invoked and not rolled back. -/
def persisted {β : Type} (tr : List (Event β)) : List β :=
  if tr.any isCommitEv && !tr.any isRollbackEv then mutationsOf tr else []

/-- Success or failure verdict of a load_all result: True (committed) is
success, everything else is failure. -/
def resultVerdict : Except Exc JobOutcome → Bool
  | Except.ok JobOutcome.committed => true
  | _ => false

/-- Message of the earliest-indexed item whose wrapped transform reports a
failure, if any. -/
def firstFailingMsg {α β : Type} (t : α → TransformRes β) : List α → Option String
  | [] => none
  | it :: rest =>
    match wrappedRes (t it) with
    | ItemRes.failure e => some e.message
    | ItemRes.output _ => firstFailingMsg t rest

/-- Pool schedule marks: a worker task starting or finishing.  Modelled
from the spec: gevent.pool.Pool is an external library not present in the
sources; section 4.3 states that a pool of size s admits at most s
simultaneously executing tasks. -/
inductive PoolMark where
  | taskStart
  | taskFinish
  deriving DecidableEq

/-- Number of active tasks after one schedule mark. -/
def activeStep (n : Nat) : PoolMark → Nat
  | PoolMark.taskStart => n + 1
  | PoolMark.taskFinish => n - 1

/-- Running count of active tasks along a schedule. -/
def activeCounts (n : Nat) : List PoolMark → List Nat
  | [] => []
  | m :: rest => activeStep n m :: activeCounts (activeStep n m) rest

/-- A schedule respects a pool size bound when the number of
simultaneously active tasks never exceeds it. -/
def respectsBound (size : Nat) (sched : List PoolMark) : Bool :=
  (activeCounts 0 sched).all fun c => decide (c ≤ size)

/-- Concrete concurrent model-mode configuration used by the witnesses. -/
def cfgW : LoaderCfg := ⟨ReturnsMode.model, true, 5⟩

/-- Concrete sequential model-mode configuration used by the witnesses. -/
def cfgSeq : LoaderCfg := ⟨ReturnsMode.model, false, 5⟩

/-- The all-succeeding session at output type Nat. -/
def okEnvN : SessionEnv Nat := okEnv

/-- A transform on which every item succeeds. -/
def tOk : Nat → TransformRes Nat := fun n => TransformRes.ok (some n)

/-- A transform where item 0 hits the concurrent-deletion condition and
every other item succeeds. -/
def tC1 : Nat → TransformRes Nat :=
  fun n => if n = 0 then TransformRes.raises (Exc.objectDeleted "gone") else TransformRes.ok (some n)

/-- A transform where odd items raise a generic error and even items
succeed. -/
def tMix : Nat → TransformRes Nat :=
  fun n => if n % 2 = 1 then TransformRes.raises (Exc.generic "odd") else TransformRes.ok (some n)

theorem filterNil {γ : Type} (p : γ → Bool) :
    ∀ (l : List γ), (∀ a ∈ l, p a = false) → l.filter p = [] := by
  intro l h
  induction l with
  | nil => rfl
  | cons a rest ih =>
    simp [List.filter_cons, h a (by simp), ih fun b hb => h b (by simp [hb])]

theorem boolOfIff {a b : Bool} (h : (a = true) ↔ (b = true)) : a = b := by
  cases a <;> cases b <;> simp_all

theorem wrapped_ok {β : Type} (t : TransformRes β) :
    load_one_wrapped t = Except.ok (wrappedRes t) := by
  cases t with
  | ok o => rfl
  | raises e => cases e <;> rfl

theorem runItems_eq {α β : Type} (t : α → TransformRes β) (l : List α) :
    runItems (l.map fun it => load_one_wrapped (t it)) =
      (l.map fun it => Event.itemResult (isFailItem t it),
        Except.ok (itemErrors t l, itemOutputs t l)) := by
  induction l with
  | nil => rfl
  | cons it rest ih =>
    simp only [List.map_cons, wrapped_ok] at ih ⊢
    cases hw : wrappedRes (t it) with
    | output o => simp [runItems, ih, itemErrors, itemOutputs, isFailItem, hw, Except.map]
    | failure e => simp [runItems, ih, itemErrors, itemOutputs, isFailItem, hw, Except.map]

theorem loadAll_some_eq {α β : Type} (cfg : LoaderCfg) (env : SessionEnv β)
    (t : α → TransformRes β) (data arrival : List α) :
    loadAll cfg env t (some data) arrival =
      afterItems cfg env (itemErrors t (observedOrder cfg data arrival))
        (itemOutputs t (observedOrder cfg data arrival))
        (preTrace cfg t data arrival) := by
  simp only [loadAll, runItems_eq, preTrace]

theorem sessLoop_all_ok {β : Type} (evf : β → Event β) (os : List (Option β)) :
    sessLoop (fun _ => none) evf os = ((os.filterMap id).map evf, none) := by
  induction os with
  | nil => rfl
  | cons o rest ih => cases o <;> simp [sessLoop, ih, List.filterMap_cons]

theorem mutatePhase_nil {β : Type} (mode : ReturnsMode) (env : SessionEnv β) :
    mutatePhase mode env [] = ([], none) := by
  cases mode <;> rfl

theorem mutatePhase_okEnv_model {β : Type} (os : List (Option β)) :
    mutatePhase ReturnsMode.model okEnv os =
      ((os.filterMap id).map Event.sessionAdd, none) := by
  simp [mutatePhase, okEnv, sessLoop_all_ok]

theorem mutatePhase_okEnv_query {β : Type} (os : List (Option β)) :
    mutatePhase ReturnsMode.query okEnv os =
      ((os.filterMap id).map Event.sessionExecute, none) := by
  simp [mutatePhase, okEnv, sessLoop_all_ok]

theorem mutatePhase_snd_okEnv {β : Type} (mode : ReturnsMode) (os : List (Option β)) :
    (mutatePhase mode okEnv os).2 = none := by
  cases mode with
  | model => rw [mutatePhase_okEnv_model]
  | query => rw [mutatePhase_okEnv_query]
  | nullMode => rfl

theorem sessLoop_isNone_iff {β : Type} (call : β → Option Exc) (evf : β → Event β)
    (os : List (Option β)) :
    (sessLoop call evf os).2 = none ↔ ∀ b : β, some b ∈ os → call b = none := by
  induction os with
  | nil => simp [sessLoop]
  | cons o rest ih =>
    cases o with
    | none => simp [sessLoop, ih]
    | some v =>
      cases hc : call v with
      | some e =>
        simp only [sessLoop, hc]
        constructor
        · intro h; exact absurd h (by simp)
        · intro h; exact absurd (h v (by simp)) (by simp [hc])
      | none => simp [sessLoop, hc, ih]

theorem sessLoop_fst_filter {β : Type} (call : β → Option Exc) (evf : β → Event β)
    (p : Event β → Bool) (hp : ∀ o : β, p (evf o) = false) (os : List (Option β)) :
    ((sessLoop call evf os).1).filter p = [] := by
  induction os with
  | nil => rfl
  | cons o rest ih =>
    cases o with
    | none => simpa [sessLoop] using ih
    | some v =>
      cases hc : call v with
      | some e => simp [sessLoop, hc, List.filter_cons, hp]
      | none => simp [sessLoop, hc, List.filter_cons, hp, ih]

theorem preTrace_filter {α β : Type} (cfg : LoaderCfg) (t : α → TransformRes β)
    (data arrival : List α) (p : Event β → Bool)
    (h1 : p (Event.redisGet true) = false) (h2 : p Event.redisDelete = false)
    (h3 : ∀ n, p (Event.poolCreate n) = false)
    (h4 : ∀ b, p (Event.itemResult b) = false) :
    (preTrace cfg t data arrival).filter p = [] := by
  apply filterNil
  intro a ha
  cases hcon : cfg.concurrent
  · simp [preTrace, hcon] at ha
    rcases ha with rfl | rfl | ⟨it, hit, rfl⟩
    · exact h1
    · exact h2
    · exact h4 _
  · simp [preTrace, hcon] at ha
    rcases ha with rfl | rfl | rfl | ⟨it, hit, rfl⟩
    · exact h1
    · exact h2
    · exact h3 _
    · exact h4 _
theorem mutatePhase_fst_filter {β : Type} (mode : ReturnsMode) (env : SessionEnv β)
    (p : Event β → Bool)
    (hAdd : ∀ o : β, p (Event.sessionAdd o) = false)
    (hExec : ∀ o : β, p (Event.sessionExecute o) = false)
    (os : List (Option β)) :
    ((mutatePhase mode env os).1).filter p = [] := by
  cases mode with
  | model => exact sessLoop_fst_filter _ _ p hAdd os
  | query => exact sessLoop_fst_filter _ _ p hExec os
  | nullMode => rfl

theorem afterItems_shape {β : Type} (cfg : LoaderCfg) (env : SessionEnv β)
    (errors : List Exc) (outputs : List (Option β)) (pre : List (Event β)) :
    ∃ suffix, (afterItems cfg env errors outputs pre).1 = pre ++ suffix := by
  unfold afterItems
  by_cases h : errors.length ≠ 0
  · rw [if_pos h]
    exact ⟨[], (List.append_nil pre).symm⟩
  · rw [if_neg h]
    rcases hmp : mutatePhase cfg.returns env outputs with ⟨mutEvs, me⟩
    cases me with
    | some e => exact ⟨mutEvs, rfl⟩
    | none =>
      cases env.commitExc with
      | some e => exact ⟨mutEvs ++ [Event.sessionCommit, Event.sessionRollback,
          Event.sessionRemove], by simp⟩
      | none => exact ⟨mutEvs ++ [Event.sessionCommit, Event.sessionRemove], by simp⟩

theorem afterItems_errorsNonempty {β : Type} (cfg : LoaderCfg) (env : SessionEnv β)
    (errors : List Exc) (outputs : List (Option β)) (pre : List (Event β))
    (h : errors ≠ []) :
    afterItems cfg env errors outputs pre =
      (pre, Except.ok (JobOutcome.requestError (bulkErrMsg (firstMessage errors)))) := by
  unfold afterItems
  rw [if_pos fun hlen => h (List.length_eq_zero.mp hlen)]

theorem afterItems_okEnv {β : Type} (cfg : LoaderCfg)
    (outputs : List (Option β)) (pre : List (Event β)) :
    afterItems cfg okEnv [] outputs pre =
      (pre ++ (mutatePhase cfg.returns okEnv outputs).1 ++
        [Event.sessionCommit, Event.sessionRemove], Except.ok JobOutcome.committed) := by
  unfold afterItems
  rw [if_neg (by simp)]
  rcases hmp : mutatePhase cfg.returns okEnv outputs with ⟨mutEvs, me⟩
  have h2 : me = none := by
    have hsnd := mutatePhase_snd_okEnv (β := β) cfg.returns outputs
    rw [hmp] at hsnd
    exact hsnd
  subst h2
  simp [hmp, okEnv]

theorem verdict_afterItems {β : Type} (cfg : LoaderCfg) (env : SessionEnv β)
    (errors : List Exc) (outputs : List (Option β)) (pre : List (Event β)) :
    resultVerdict (afterItems cfg env errors outputs pre).2 =
      (decide (errors = []) && (mutatePhase cfg.returns env outputs).2.isNone &&
        env.commitExc.isNone) := by
  unfold afterItems
  by_cases h : errors = []
  · subst h
    rw [if_neg (by simp)]
    rcases hmp : mutatePhase cfg.returns env outputs with ⟨mutEvs, me⟩
    cases me <;> cases hce : env.commitExc <;>
      simp [resultVerdict, hmp, hce]
  · rw [if_pos fun hlen => h (List.length_eq_zero.mp hlen)]
    simp [resultVerdict, h]

theorem verdict_loadAll {α β : Type} (cfg : LoaderCfg) (env : SessionEnv β)
    (t : α → TransformRes β) (data arrival : List α) :
    resultVerdict (loadAll cfg env t (some data) arrival).2 =
      (decide (itemErrors t (observedOrder cfg data arrival) = []) &&
        (mutatePhase cfg.returns env (itemOutputs t (observedOrder cfg data arrival))).2.isNone &&
        env.commitExc.isNone) := by
  rw [loadAll_some_eq, verdict_afterItems]

theorem loadAll_trace_head {α β : Type} (cfg : LoaderCfg) (env : SessionEnv β)
    (t : α → TransformRes β) (data arrival : List α) :
    ∃ rest, (loadAll cfg env t (some data) arrival).1 =
      Event.redisGet true :: Event.redisDelete ::
        ((if cfg.concurrent then [Event.poolCreate (min data.length cfg.max_workers)]
          else []) ++ rest) := by
  rw [loadAll_some_eq]
  obtain ⟨suffix, hs⟩ := afterItems_shape cfg env
    (itemErrors t (observedOrder cfg data arrival))
    (itemOutputs t (observedOrder cfg data arrival)) (preTrace cfg t data arrival)
  refine ⟨((observedOrder cfg data arrival).map fun it =>
    Event.itemResult (isFailItem t it)) ++ suffix, ?_⟩
  rw [hs]
  simp [preTrace, List.append_assoc]

theorem itemErrors_eq_filterMap {α β : Type} (t : α → TransformRes β) (l : List α) :
    itemErrors t l = l.filterMap fun it =>
      match wrappedRes (t it) with
      | ItemRes.failure e => some e
      | ItemRes.output _ => none := by
  induction l with
  | nil => rfl
  | cons it rest ih =>
    cases hw : wrappedRes (t it) <;>
      simp [itemErrors, hw, ih, List.filterMap_cons]

theorem itemOutputs_eq_filterMap {α β : Type} (t : α → TransformRes β) (l : List α) :
    itemOutputs t l = l.filterMap fun it =>
      match wrappedRes (t it) with
      | ItemRes.failure _ => none
      | ItemRes.output o => some o := by
  induction l with
  | nil => rfl
  | cons it rest ih =>
    cases hw : wrappedRes (t it) <;>
      simp [itemOutputs, hw, ih, List.filterMap_cons]

theorem itemErrors_perm {α β : Type} (t : α → TransformRes β) {l1 l2 : List α}
    (p : l1.Perm l2) : (itemErrors t l1).Perm (itemErrors t l2) := by
  rw [itemErrors_eq_filterMap, itemErrors_eq_filterMap]
  exact p.filterMap _

theorem itemOutputs_perm {α β : Type} (t : α → TransformRes β) {l1 l2 : List α}
    (p : l1.Perm l2) : (itemOutputs t l1).Perm (itemOutputs t l2) := by
  rw [itemOutputs_eq_filterMap, itemOutputs_eq_filterMap]
  exact p.filterMap _

theorem mutatePhase_isNone_perm {β : Type} (mode : ReturnsMode) (env : SessionEnv β)
    {os1 os2 : List (Option β)} (p : os1.Perm os2) :
    (mutatePhase mode env os1).2.isNone = (mutatePhase mode env os2).2.isNone := by
  cases mode with
  | nullMode => rfl
  | model =>
    apply boolOfIff
    simp only [mutatePhase, Option.isNone_iff_eq_none]
    rw [sessLoop_isNone_iff, sessLoop_isNone_iff]
    constructor <;> intro h b hb
    · exact h b (p.mem_iff.mpr hb)
    · exact h b (p.mem_iff.mp hb)
  | query =>
    apply boolOfIff
    simp only [mutatePhase, Option.isNone_iff_eq_none]
    rw [sessLoop_isNone_iff, sessLoop_isNone_iff]
    constructor <;> intro h b hb
    · exact h b (p.mem_iff.mpr hb)
    · exact h b (p.mem_iff.mp hb)

theorem firstFailing_eq {α β : Type} (t : α → TransformRes β) :
    ∀ (l : List α) (m : String), firstFailingMsg t l = some m →
      itemErrors t l ≠ [] ∧ firstMessage (itemErrors t l) = m := by
  intro l
  induction l with
  | nil => intro m h; exact absurd h (by simp [firstFailingMsg])
  | cons it rest ih =>
    intro m h
    cases hw : wrappedRes (t it) with
    | failure e =>
      simp [firstFailingMsg, hw] at h
      constructor
      · simp [itemErrors, hw]
      · simp [itemErrors, hw, firstMessage, h]
    | output o =>
      simp only [firstFailingMsg, hw] at h
      have hr := ih m h
      constructor
      · simpa [itemErrors, hw] using hr.1
      · simpa [itemErrors, hw] using hr.2

theorem isCommitEv_true_iff {β : Type} (ev : Event β) :
    isCommitEv ev = true ↔ ev = Event.sessionCommit := by
  cases ev <;> simp [isCommitEv]

theorem filterAll {γ : Type} (p : γ → Bool) :
    ∀ (l : List γ), (∀ a ∈ l, p a = true) → l.filter p = l := by
  intro l h
  induction l with
  | nil => rfl
  | cons a rest ih =>
    simp [List.filter_cons, h a (by simp), ih fun b hb => h b (by simp [hb])]

theorem afterItems_filter {β : Type} (cfg : LoaderCfg) (env : SessionEnv β)
    (errors : List Exc) (outputs : List (Option β)) (pre : List (Event β))
    (p : Event β → Bool)
    (hAdd : ∀ o : β, p (Event.sessionAdd o) = false)
    (hExec : ∀ o : β, p (Event.sessionExecute o) = false)
    (hC : p Event.sessionCommit = false) (hR : p Event.sessionRollback = false)
    (hRem : p Event.sessionRemove = false) :
    ((afterItems cfg env errors outputs pre).1).filter p = pre.filter p := by
  unfold afterItems
  by_cases h : errors.length ≠ 0
  · rw [if_pos h]
  · rw [if_neg h]
    rcases hmp : mutatePhase cfg.returns env outputs with ⟨mutEvs, me⟩
    have hmut : mutEvs.filter p = [] := by
      have := mutatePhase_fst_filter cfg.returns env p hAdd hExec outputs
      rw [hmp] at this
      exact this
    cases me with
    | some e => simp [List.filter_append, hmut]
    | none =>
      cases env.commitExc with
      | some e =>
        simp [List.filter_append, hmut, List.filter_cons, hC, hR, hRem]
      | none =>
        simp [List.filter_append, hmut, List.filter_cons, hC, hRem]

theorem loadAll_filter_itemEv {α β : Type} (cfg : LoaderCfg) (env : SessionEnv β)
    (t : α → TransformRes β) (data arrival : List α) :
    ((loadAll cfg env t (some data) arrival).1).filter isItemEv =
      (observedOrder cfg data arrival).map fun it =>
        Event.itemResult (isFailItem t it) := by
  rw [loadAll_some_eq]
  rw [afterItems_filter _ _ _ _ _ _ (fun o => rfl) (fun o => rfl) rfl rfl rfl]
  unfold preTrace
  rw [List.filter_cons, List.filter_cons]
  simp only [isItemEv]
  rw [List.filter_append]
  have h1 : (if cfg.concurrent then [Event.poolCreate (min data.length cfg.max_workers)]
      else [] : List (Event β)).filter isItemEv = [] := by
    cases hcc : cfg.concurrent <;> simp [isItemEv]
  rw [h1]
  rw [filterAll _ _ fun a ha => by
    obtain ⟨it, hit, rfl⟩ := List.mem_map.mp ha
    rfl]
  simp

/-- C1: evaluation of the code at the failing input.  Because the clause
`except Exception` precedes `except ObjectDeletedError` in _load_one, an
ObjectDeletedError raised by the transform is matched by the Exception
clause, recorded as a failure pair (True, e) rather than the benign
(False, None), and the whole batch returns the RequestError built from its
message instead of committing the remaining items. -/
theorem claim_c1 :
    firstMatch (Exc.objectDeleted "gone") loadOneClauses = some ExcClass.exception
    ∧ load_one_wrapped (TransformRes.raises (Exc.objectDeleted "gone") : TransformRes Nat) =
        Except.ok (ItemRes.failure (Exc.objectDeleted "gone"))
    ∧ (loadAll cfgW okEnvN tC1 (some [0, 1]) [0, 1]).2 =
        Except.ok (JobOutcome.requestError (bulkErrMsg "gone"))
    ∧ (loadAll cfgW okEnvN tC1 (some [0, 1]) [0, 1]).1.filter isCommitEv = [] :=
  ⟨rfl, rfl, rfl, rfl⟩

/-- C2: when at least one observed item result is a failure, load_all
returns the RequestError built from the first failure in the order the
aggregator observed the outcomes, never invokes commit, and performs no
session add or execute. -/
theorem claim_c2 {α β : Type} (cfg : LoaderCfg) (env : SessionEnv β)
    (t : α → TransformRes β) (data arrival : List α)
    (h : itemErrors t (observedOrder cfg data arrival) ≠ []) :
    (loadAll cfg env t (some data) arrival).2 =
      Except.ok (JobOutcome.requestError
        (bulkErrMsg (firstMessage (itemErrors t (observedOrder cfg data arrival)))))
    ∧ (loadAll cfg env t (some data) arrival).1.filter isCommitEv = []
    ∧ (loadAll cfg env t (some data) arrival).1.filter isMutEv = [] := by
  have he := loadAll_some_eq cfg env t data arrival
  rw [afterItems_errorsNonempty _ _ _ _ _ h] at he
  rw [he]
  exact ⟨rfl,
    preTrace_filter _ _ _ _ _ rfl rfl (fun n => rfl) (fun b => rfl),
    preTrace_filter _ _ _ _ _ rfl rfl (fun n => rfl) (fun b => rfl)⟩

theorem claim_c2_witness :
    (loadAll cfgW okEnvN tMix (some [1, 2]) [2, 1]).2 =
      Except.ok (JobOutcome.requestError
        (bulkErrMsg (firstMessage (itemErrors tMix (observedOrder cfgW [1, 2] [2, 1])))))
    ∧ (loadAll cfgW okEnvN tMix (some [1, 2]) [2, 1]).1.filter isCommitEv = []
    ∧ (loadAll cfgW okEnvN tMix (some [1, 2]) [2, 1]).1.filter isMutEv = [] :=
  claim_c2 cfgW okEnvN tMix [1, 2] [2, 1] (by decide)

/-- C3: when no observed item result is a failure and the session
operations succeed, load_all invokes commit exactly once, adds (model
mode) or executes (query mode) exactly the non-None outputs before the
commit, and returns True. -/
theorem claim_c3 {α β : Type} (cfg : LoaderCfg) (t : α → TransformRes β)
    (data arrival : List α)
    (h : itemErrors t (observedOrder cfg data arrival) = []) :
    (loadAll cfg okEnv t (some data) arrival).2 = Except.ok JobOutcome.committed
    ∧ ((loadAll cfg okEnv t (some data) arrival).1.filter isCommitEv).length = 1
    ∧ (cfg.returns = ReturnsMode.model →
        (loadAll cfg okEnv t (some data) arrival).1 =
          preTrace cfg t data arrival ++
            ((itemOutputs t (observedOrder cfg data arrival)).filterMap id).map
              Event.sessionAdd ++
            [Event.sessionCommit, Event.sessionRemove])
    ∧ (cfg.returns = ReturnsMode.query →
        (loadAll cfg okEnv t (some data) arrival).1 =
          preTrace cfg t data arrival ++
            ((itemOutputs t (observedOrder cfg data arrival)).filterMap id).map
              Event.sessionExecute ++
            [Event.sessionCommit, Event.sessionRemove]) := by
  have he := loadAll_some_eq cfg okEnv t data arrival
  rw [h, afterItems_okEnv] at he
  rw [he]
  refine ⟨rfl, ?_, ?_, ?_⟩
  · rw [List.filter_append, List.filter_append]
    rw [preTrace_filter _ _ _ _ _ rfl rfl (fun n => rfl) (fun b => rfl)]
    rw [mutatePhase_fst_filter _ _ _ (fun o => rfl) (fun o => rfl)]
    rfl
  · intro hm
    rw [hm, mutatePhase_okEnv_model]
  · intro hq
    rw [hq, mutatePhase_okEnv_query]

theorem claim_c3_witness :
    (loadAll cfgW okEnv tOk (some [1, 2]) [2, 1]).2 = Except.ok JobOutcome.committed
    ∧ ((loadAll cfgW okEnv tOk (some [1, 2]) [2, 1]).1.filter isCommitEv).length = 1
    ∧ (cfgW.returns = ReturnsMode.model →
        (loadAll cfgW okEnv tOk (some [1, 2]) [2, 1]).1 =
          preTrace cfgW tOk [1, 2] [2, 1] ++
            ((itemOutputs tOk (observedOrder cfgW [1, 2] [2, 1])).filterMap id).map
              Event.sessionAdd ++
            [Event.sessionCommit, Event.sessionRemove])
    ∧ (cfgW.returns = ReturnsMode.query →
        (loadAll cfgW okEnv tOk (some [1, 2]) [2, 1]).1 =
          preTrace cfgW tOk [1, 2] [2, 1] ++
            ((itemOutputs tOk (observedOrder cfgW [1, 2] [2, 1])).filterMap id).map
              Event.sessionExecute ++
            [Event.sessionCommit, Event.sessionRemove]) :=
  claim_c3 cfgW tOk [1, 2] [2, 1] (by decide)

/-- C4: whenever the staged payload is present, the very first two effects
of load_all are the fetch and then the deletion of the staging key, before
the pool is built and before any item result is observed; and under a
timeout cutoff that allows at least those two steps the deletion has still
happened. -/
theorem claim_c4 {α β : Type} (cfg : LoaderCfg) (env : SessionEnv β)
    (t : α → TransformRes β) (data arrival : List α) :
    (∃ rest, (loadAll cfg env t (some data) arrival).1 =
        Event.redisGet true :: Event.redisDelete :: rest)
    ∧ (∀ cutoff elapsed : Nat, 2 ≤ cutoff →
        Event.redisDelete ∈ (loadAllTimed cfg env t (some data) arrival cutoff elapsed).1) := by
  obtain ⟨rest, hr⟩ := loadAll_trace_head cfg env t data arrival
  constructor
  · exact ⟨_, hr⟩
  · intro cutoff elapsed hc
    unfold loadAllTimed
    by_cases hlt : cutoff < (loadAll cfg env t (some data) arrival).1.length
    · rw [if_pos hlt]
      obtain ⟨k, hk⟩ := Nat.exists_eq_add_of_le hc
      subst hk
      rw [hr, Nat.add_comm]
      simp [List.take_succ_cons]
    · rw [if_neg hlt]
      rw [hr]
      simp

theorem claim_c4_witness :
    Event.redisDelete ∈ (loadAllTimed cfgW okEnvN tOk (some [1]) [1] 2 7).1 :=
  (claim_c4 cfgW okEnvN tOk [1] [1]).2 2 7 (by decide)

/-- C5 counterexample: with no payload under the staging key, the result
of load_all is the exception InternalServerError propagating out of
load_all (Except.error), not a structured outcome value (Except.ok). -/
theorem claim_c5_counterexample :
    (loadAll cfgW okEnvN tOk none []).2 =
      Except.error (Exc.internalServer missingPayloadMsg)
    ∧ (loadAll cfgW okEnvN tOk none []).2 ≠
        Except.ok (JobOutcome.internalError missingPayloadMsg) :=
  ⟨rfl, fun h => Except.noConfusion h⟩

/-- C5 amended: when the staging store holds no payload, load_all raises
InternalServerError immediately after the failed fetch; the outer except
clause catches only JobTimeoutException, so this engine-level error is
raised out of load_all rather than returned as a structured outcome. -/
theorem claim_c5 {α β : Type} (cfg : LoaderCfg) (env : SessionEnv β)
    (t : α → TransformRes β) (arrival : List α) :
    loadAll cfg env t none arrival =
      ([Event.redisGet false], Except.error (Exc.internalServer missingPayloadMsg)) := rfl

/-- C6: if the timeout signal interrupts load_all before the commit step,
no commit is ever invoked, nothing is persisted, and load_all returns the
structured timeout outcome carrying the elapsed duration. -/
theorem claim_c6 {α β : Type} (cfg : LoaderCfg) (env : SessionEnv β)
    (t : α → TransformRes β) (staged : Option (List α)) (arrival : List α)
    (cutoff elapsed : Nat)
    (hlt : cutoff < (loadAll cfg env t staged arrival).1.length)
    (hnc : Event.sessionCommit ∉ (loadAll cfg env t staged arrival).1.take cutoff) :
    (loadAllTimed cfg env t staged arrival cutoff elapsed).2 =
      Except.ok (JobOutcome.internalError (timeoutMsg elapsed))
    ∧ (loadAllTimed cfg env t staged arrival cutoff elapsed).1.filter isCommitEv = []
    ∧ persisted (loadAllTimed cfg env t staged arrival cutoff elapsed).1 = [] := by
  have hT : loadAllTimed cfg env t staged arrival cutoff elapsed =
      ((loadAll cfg env t staged arrival).1.take cutoff,
        raiseOuter elapsed rqTimeoutRaised) := by
    unfold loadAllTimed
    rw [if_pos hlt]
  rw [hT]
  have hfil : ((loadAll cfg env t staged arrival).1.take cutoff).filter isCommitEv = [] := by
    apply filterNil
    intro a ha
    cases hia : isCommitEv a
    · rfl
    · rw [isCommitEv_true_iff] at hia
      exact absurd (hia ▸ ha) hnc
  have hany : ((loadAll cfg env t staged arrival).1.take cutoff).any isCommitEv = false := by
    cases hq : ((loadAll cfg env t staged arrival).1.take cutoff).any isCommitEv
    · rfl
    · rw [List.any_eq_true] at hq
      obtain ⟨x, hx, hpx⟩ := hq
      rw [isCommitEv_true_iff] at hpx
      exact absurd (hpx ▸ hx) hnc
  exact ⟨rfl, hfil, by simp [persisted, hany]⟩

theorem claim_c6_witness :
    (loadAllTimed cfgW okEnvN tOk (some [1]) [1] 4 99).2 =
      Except.ok (JobOutcome.internalError (timeoutMsg 99))
    ∧ (loadAllTimed cfgW okEnvN tOk (some [1]) [1] 4 99).1.filter isCommitEv = []
    ∧ persisted (loadAllTimed cfgW okEnvN tOk (some [1]) [1] 4 99).1 = [] :=
  claim_c6 cfgW okEnvN tOk (some [1]) [1] 4 99 (by decide) (by decide)

/-- C7: every non-benign exception a transform raises is captured by
_load_one as a failure pair carrying the exception (hence its message); no
exception ever escapes _load_one into the pool; and every item of the
batch contributes exactly one observed result, so one failure never
cancels a sibling. -/
theorem claim_c7 {α β : Type} :
    (∀ e : Exc, e.isInstanceOf ExcClass.objectDeletedError = false →
      load_one_wrapped (TransformRes.raises e : TransformRes β) =
        Except.ok (ItemRes.failure e))
    ∧ (∀ tr : TransformRes β, ∃ r, load_one_wrapped tr = Except.ok r)
    ∧ (∀ (cfg : LoaderCfg) (env : SessionEnv β) (t : α → TransformRes β)
        (data arrival : List α), arrival.Perm data →
        ((loadAll cfg env t (some data) arrival).1.filter isItemEv).length =
          data.length) := by
  refine ⟨?_, ?_, ?_⟩
  · intro e he
    cases e <;> rfl
  · intro tr
    exact ⟨wrappedRes tr, wrapped_ok tr⟩
  · intro cfg env t data arrival hp
    rw [loadAll_filter_itemEv, List.length_map]
    unfold observedOrder
    cases hcc : cfg.concurrent
    · simp
    · simp [hp.length_eq]

theorem claim_c7_witness :
    load_one_wrapped (TransformRes.raises (Exc.generic "boom") : TransformRes Nat) =
      Except.ok (ItemRes.failure (Exc.generic "boom"))
    ∧ ((loadAll cfgW okEnvN tMix (some [1, 2, 3]) [3, 1, 2]).1.filter isItemEv).length = 3 :=
  ⟨(claim_c7 (α := Nat) (β := Nat)).1 (Exc.generic "boom") (by decide),
    (claim_c7 (α := Nat) (β := Nat)).2.2 cfgW okEnvN tMix [1, 2, 3] [3, 1, 2] (by decide)⟩

/-- C8: in concurrent mode the success or failure verdict of load_all is
unchanged by permuting the input items and the completion order; in
sequential mode the reported first-failure message is the message of the
earliest-indexed failing item. -/
theorem claim_c8 :
    (∀ {α β : Type} (cfg : LoaderCfg) (env : SessionEnv β) (t : α → TransformRes β)
      (data1 data2 arrival1 arrival2 : List α),
      cfg.concurrent = true → arrival1.Perm data1 → arrival2.Perm data2 →
      data1.Perm data2 →
      resultVerdict (loadAll cfg env t (some data1) arrival1).2 =
        resultVerdict (loadAll cfg env t (some data2) arrival2).2)
    ∧ (∀ {α β : Type} (cfg : LoaderCfg) (env : SessionEnv β) (t : α → TransformRes β)
      (data arrival : List α) (m : String),
      cfg.concurrent = false → firstFailingMsg t data = some m →
      (loadAll cfg env t (some data) arrival).2 =
        Except.ok (JobOutcome.requestError (bulkErrMsg m))) := by
  constructor
  · intro α β cfg env t d1 d2 a1 a2 hcon hp1 hp2 hd
    have hp : a1.Perm a2 := (hp1.trans hd).trans hp2.symm
    rw [verdict_loadAll, verdict_loadAll]
    have ho1 : observedOrder cfg d1 a1 = a1 := by simp [observedOrder, hcon]
    have ho2 : observedOrder cfg d2 a2 = a2 := by simp [observedOrder, hcon]
    rw [ho1, ho2]
    have hErr : (itemErrors t a1).Perm (itemErrors t a2) := itemErrors_perm t hp
    have hErrNil : decide (itemErrors t a1 = []) = decide (itemErrors t a2 = []) := by
      apply boolOfIff
      simp only [decide_eq_true_eq]
      constructor
      · intro h
        exact ((h ▸ hErr).symm).eq_nil
      · intro h
        exact (h ▸ hErr).eq_nil
    have hOut := mutatePhase_isNone_perm cfg.returns env (itemOutputs_perm t hp)
    rw [hErrNil, hOut]
  · intro α β cfg env t data arrival m hcon hff
    obtain ⟨hne, hfm⟩ := firstFailing_eq t data m hff
    have ho : observedOrder cfg data arrival = data := by simp [observedOrder, hcon]
    have he := loadAll_some_eq cfg env t data arrival
    rw [ho, afterItems_errorsNonempty _ _ _ _ _ hne] at he
    rw [he]
    simp [hfm]

theorem claim_c8_witness :
    resultVerdict (loadAll cfgW okEnvN tMix (some [1, 2]) [2, 1]).2 =
      resultVerdict (loadAll cfgW okEnvN tMix (some [2, 1]) [1, 2]).2
    ∧ (loadAll cfgSeq okEnvN tMix (some [3, 1]) []).2 =
        Except.ok (JobOutcome.requestError (bulkErrMsg "odd")) :=
  ⟨claim_c8.1 cfgW okEnvN tMix [1, 2] [2, 1] [2, 1] [1, 2] rfl (by decide) (by decide)
      (by decide),
    claim_c8.2 cfgSeq okEnvN tMix [3, 1] [] "odd" rfl (by decide)⟩

/-- C9: in concurrent mode load_all builds the pool with size
min(len(data), max_workers); a pool schedule that respects that size
never has more than max_workers simultaneously active tasks when the
batch is larger than max_workers. -/
theorem claim_c9 {α β : Type} (cfg : LoaderCfg) (env : SessionEnv β)
    (t : α → TransformRes β) (data arrival : List α)
    (hcon : cfg.concurrent = true) :
    Event.poolCreate (min data.length cfg.max_workers) ∈
      (loadAll cfg env t (some data) arrival).1
    ∧ (cfg.max_workers < data.length →
        ∀ sched : List PoolMark,
          respectsBound (min data.length cfg.max_workers) sched = true →
          respectsBound cfg.max_workers sched = true) := by
  constructor
  · obtain ⟨rest, hr⟩ := loadAll_trace_head cfg env t data arrival
    rw [hr, hcon]
    simp
  · intro hlt sched hs
    rwa [min_eq_right (Nat.le_of_lt hlt)] at hs

theorem claim_c9_witness :
    Event.poolCreate (min 7 5) ∈
      (loadAll cfgW okEnvN tOk (some [0, 1, 2, 3, 4, 5, 6]) [0, 1, 2, 3, 4, 5, 6]).1
    ∧ respectsBound 5 [PoolMark.taskStart, PoolMark.taskStart, PoolMark.taskFinish] = true :=
  ⟨(claim_c9 cfgW okEnvN tOk [0, 1, 2, 3, 4, 5, 6] [0, 1, 2, 3, 4, 5, 6] rfl).1,
    by
      have h := (claim_c9 cfgW okEnvN tOk [0, 1, 2, 3, 4, 5, 6]
        [0, 1, 2, 3, 4, 5, 6] rfl).2 (by decide)
        [PoolMark.taskStart, PoolMark.taskStart, PoolMark.taskFinish] (by decide)
      exact h⟩

/-- C10: in concurrent mode the pool is always constructed with size
min(len(data), max_workers); in particular the empty batch builds a pool
of size 0 and still flows through the commit step to the Committed
result rather than short-circuiting. -/
theorem claim_c10 {α β : Type} (cfg : LoaderCfg) (env : SessionEnv β)
    (t : α → TransformRes β) (data arrival : List α)
    (hcon : cfg.concurrent = true) :
    Event.poolCreate (min data.length cfg.max_workers) ∈
      (loadAll cfg env t (some data) arrival).1
    ∧ loadAll cfg (okEnv (β := β)) t (some ([] : List α)) [] =
        ([Event.redisGet true, Event.redisDelete, Event.poolCreate 0,
          Event.sessionCommit, Event.sessionRemove],
          Except.ok JobOutcome.committed) := by
  constructor
  · obtain ⟨rest, hr⟩ := loadAll_trace_head cfg env t data arrival
    rw [hr, hcon]
    simp
  · have ho : observedOrder cfg ([] : List α) [] = [] := by
      cases hcc : cfg.concurrent <;> simp [observedOrder, hcc]
    have he := loadAll_some_eq cfg (okEnv (β := β)) t [] []
    rw [ho] at he
    simp only [itemErrors, itemOutputs] at he
    rw [afterItems_okEnv] at he
    rw [he, mutatePhase_nil]
    simp [preTrace, hcon, ho]

theorem claim_c10_witness :
    Event.poolCreate (min 1 5) ∈ (loadAll cfgW okEnvN tOk (some [3]) [3]).1
    ∧ loadAll cfgW (okEnv (β := Nat)) tOk (some ([] : List Nat)) [] =
        ([Event.redisGet true, Event.redisDelete, Event.poolCreate 0,
          Event.sessionCommit, Event.sessionRemove],
          Except.ok JobOutcome.committed) :=
  ⟨(claim_c10 cfgW okEnvN tOk [3] [3] rfl).1,
    (claim_c10 cfgW okEnvN tOk [3] [3] rfl).2⟩
